import Mathlib

/-!
Verification of the gzip compress/decompress utility of this repository.

The repository ships its test suite, the vitest setup and the mocked
implementations of the path, fs, zlib and util modules; the entry module
src/main.js itself (compressFile, decompressFile,
performCompressionAndDecompression, and the unique-file-name resolver) is
not among the sources, so those functions are modelled from the
specification, constrained by the behaviour the test suite pins down.

The filesystem is a finite association list from paths to contents.
Contents are lists of characters, matching the single-chunk byte buffers
the mocked streams move around. The mocked gzip codec prepends the marker
string to the content; the mocked gunzip codec removes the first
occurrence of the marker, which is how the JavaScript replace method with
a plain string pattern behaves.
-/

/-- A file content: the byte buffer of the mocked streams, as characters. -/
abbrev Bytes : Type := List Char

/-- The in-memory filesystem of the memfs volume: path-content pairs. -/
abbrev FS : Type := List (String × Bytes)

/-- Number of entries of the volume. -/
def FS.size (fs : FS) : Nat := List.length fs

/-- existsSync of the mocked volume: some entry carries this path. -/
def FS.existsAt (fs : FS) (p : String) : Bool :=
  List.any fs (fun e => e.1 == p)

/-- readFileSync of the mocked volume: content of the first entry at the path. -/
def FS.read (fs : FS) (p : String) : Option Bytes :=
  Option.map Prod.snd (List.find? (fun e => e.1 == p) fs)

/-- writeFileSync of the mocked volume: replace any entry at the path. -/
def FS.write (fs : FS) (p : String) (c : Bytes) : FS :=
  (p, c) :: List.filter (fun e => e.1 != p) fs

/-- Base name as the mocked path.parse computes it: the part of the path
after the last slash (the last element of the slash-split). -/
def baseNameOf (p : String) : String :=
  String.mk (List.reverse (List.takeWhile (fun c => c != '/') (List.reverse p.data)))

/-- Directory as the mocked path.parse computes it: the path up to the
last slash, with the default directory when that prefix is empty. -/
def dirOf (p : String) : String :=
  let base := baseNameOf p
  let d := String.mk (List.take (p.data.length - base.data.length - 1) p.data)
  if d.data.isEmpty then "./files" else d

/-- join as the mocked path module computes it: insert a slash unless the
directory already ends with one. -/
def pathJoin (dir fname : String) : String :=
  if List.getLast? dir.data = some '/' then dir ++ fname else dir ++ "/" ++ fname

/-- Dot-free stem of a base name: the disambiguating suffix is inserted
right after it, in front of the full compound extension. -/
def stemOf (base : List Char) : List Char :=
  List.takeWhile (fun c => c != '.') base

/-- Compound extension of a base name: everything from the first dot on. -/
def extOf (base : List Char) : List Char :=
  List.dropWhile (fun c => c != '.') base

/-- Modelled from the spec: the candidate name the resolver of the missing
src/main.js generates for collision number k, inserting an underscore and
the number before the extension of the base name and keeping the
directory. The test suite fixes the split point at the first dot, since a
collision at source.txt.gz must produce source_1.txt.gz and a collision at
source_decompressed.txt must produce source_decompressed_1.txt. -/
def mkCandidate (desired : String) (k : Nat) : String :=
  let base := (baseNameOf desired).data
  pathJoin (dirOf desired)
    (String.mk (stemOf base) ++ "_" ++ toString k ++ String.mk (extOf base))

/-- Fuel-bounded search for the first candidate number whose name is free;
the volume is finite, so fuel one larger than its size never runs out. -/
def searchFree (fs : FS) (desired : String) : Nat → Nat → String
  | 0, k => mkCandidate desired k
  | fuel + 1, k =>
    let cand := mkCandidate desired k
    if FS.existsAt fs cand then searchFree fs desired fuel (k + 1) else cand

/-- Modelled from the spec: the unique-file-name resolver of the missing
src/main.js. If no entry exists at the desired path it is returned
unchanged; otherwise the candidates numbered 1, 2, 3, compounded as in
mkCandidate, are tried in order until a free name is found. It only reads
existence state and never writes. -/
def getUniqueFileName (fs : FS) (desired : String) : String :=
  if FS.existsAt fs desired then searchFree fs desired (FS.size fs + 1) 1
  else desired

/-- The marker the mocked zlib codec uses in place of real gzip framing. -/
def gzMarker : Bytes := "compressed:".data

/-- The mocked createGzip transform: prepend the marker to the chunk. -/
def gzipT (c : Bytes) : Bytes := gzMarker ++ c

/-- Drop pat from the front of a list, when it is a prefix. -/
def dropPrefixOpt : List Char → List Char → Option (List Char)
  | [], s => some s
  | _ :: _, [] => none
  | p :: ps, c :: cs => if p = c then dropPrefixOpt ps cs else none

/-- Remove the first occurrence of pat, as the JavaScript replace method
with a plain string pattern and an empty replacement does. -/
def removeFirst (pat : List Char) : List Char → List Char
  | [] => []
  | c :: cs =>
    match dropPrefixOpt pat (c :: cs) with
    | some rest => rest
    | none => c :: removeFirst pat cs

/-- The mocked createGunzip transform: strip the first marker occurrence. -/
def gunzipT (c : Bytes) : Bytes := removeFirst gzMarker c

/-- Errors the operations can reject with, one constructor per channel the
mocked modules provide: the throw of the mocked createReadStream on a
missing file, the ENOENT rejection of the mocked fs.promises.access, an
injected stream error, and an injected codec error. -/
inductive FsError where
  | readStreamMissing (path : String)
  | accessDenied (path : String)
  | streamErr (msg : String)
  | codecErr (msg : String)
deriving DecidableEq

/-- A single-quote character, used by the ENOENT message of the mock. -/
def squote : String := String.mk [Char.ofNat 39]

/-- The message carried by each error, matching the mocked modules. -/
def FsError.message : FsError → String
  | FsError.readStreamMissing p => "file \"" ++ p ++ "\" does not exist"
  | FsError.accessDenied p =>
      "ENOENT: no such file or directory, access " ++ squote ++ p ++ squote
  | FsError.streamErr m => m
  | FsError.codecErr m => m

/-- Observable primitive calls an operation makes against the filesystem
and stream modules, in order: the fs.promises.access check, the
createReadStream call, the createWriteStream call, and the write the
destination stream performs on success. -/
inductive FsEvent where
  | accessCheck (path : String)
  | readStreamCall (path : String)
  | writeStreamCall (path : String)
  | fileWrite (path : String) (content : Bytes)
deriving DecidableEq

/-- Whether a trace carries an explicit fs.promises.access check. -/
def hasAccessEvent (tr : List FsEvent) : Bool :=
  List.any tr (fun e => match e with
    | FsEvent.accessCheck _ => true
    | _ => false)

/-- Whether a trace carries a destination write. -/
def hasFileWrite (tr : List FsEvent) : Bool :=
  List.any tr (fun e => match e with
    | FsEvent.fileWrite _ _ => true
    | _ => false)

/-- Faults injected into the streaming stages, mirroring how the test
suite makes the read stream emit an error, the gunzip transform fail its
callback, or the write stream fail. With all fields none the mocked
streams behave as in the happy path. -/
structure StreamEnv where
  readError : Option String
  gunzipError : Option String
  writeError : Option String
deriving DecidableEq

/-- The fault-free stream environment. -/
def cleanEnv : StreamEnv := ⟨none, none, none⟩

instance {e a : Type} [DecidableEq e] [DecidableEq a] : DecidableEq (Except e a) :=
  fun x y =>
    match x, y with
    | Except.ok u, Except.ok v =>
      if h : u = v then isTrue (by rw [h]) else
        isFalse (by intro hc; cases hc; exact h rfl)
    | Except.ok _, Except.error _ => isFalse (by intro hc; cases hc)
    | Except.error _, Except.ok _ => isFalse (by intro hc; cases hc)
    | Except.error u, Except.error v =>
      if h : u = v then isTrue (by rw [h]) else
        isFalse (by intro hc; cases hc; exact h rfl)

/-- Outcome of one operation: the settled promise value, the final state
of the volume, and the trace of primitive calls made. -/
structure OpResult where
  result : Except FsError String
  fsFinal : FS
  trace : List FsEvent
deriving DecidableEq

/-- Modelled from the spec: compressFile of the missing src/main.js.
It resolves the default destination sourcePath plus the gz suffix through
the unique-name resolver, opens the streams, pipes source through the
gzip transform into the destination and settles with the final path.
The tests pin the missing-source failure to the synchronous throw of the
mocked createReadStream, whose message names the file, so no separate
fs.promises.access check is modelled before stream creation. -/
def compressFile (env : StreamEnv) (fs : FS) (src : String) : OpResult :=
  let dst := getUniqueFileName fs (src ++ ".gz")
  if FS.existsAt fs src then
    match env.readError with
    | some m =>
        ⟨Except.error (FsError.streamErr m), fs,
          [FsEvent.readStreamCall src, FsEvent.writeStreamCall dst]⟩
    | none =>
      match env.writeError with
      | some m =>
          ⟨Except.error (FsError.streamErr m), fs,
            [FsEvent.readStreamCall src, FsEvent.writeStreamCall dst]⟩
      | none =>
        let content := Option.getD (FS.read fs src) []
        ⟨Except.ok dst, FS.write fs dst (gzipT content),
          [FsEvent.readStreamCall src, FsEvent.writeStreamCall dst,
            FsEvent.fileWrite dst (gzipT content)]⟩
  else ⟨Except.error (FsError.readStreamMissing src), fs, [FsEvent.readStreamCall src]⟩

/-- Modelled from the spec: decompressFile of the missing src/main.js.
It first awaits fs.promises.access on the source, which the tests pin by
mocking that call to reject; then it resolves the destination through the
unique-name resolver, opens the streams and pipes source through the
gunzip transform into the destination, settling with the final path. -/
def decompressFile (env : StreamEnv) (fs : FS) (src dst : String) : OpResult :=
  if FS.existsAt fs src then
    let dstF := getUniqueFileName fs dst
    match env.readError with
    | some m =>
        ⟨Except.error (FsError.streamErr m), fs,
          [FsEvent.accessCheck src, FsEvent.readStreamCall src,
            FsEvent.writeStreamCall dstF]⟩
    | none =>
      match env.gunzipError with
      | some m =>
          ⟨Except.error (FsError.codecErr m), fs,
            [FsEvent.accessCheck src, FsEvent.readStreamCall src,
              FsEvent.writeStreamCall dstF]⟩
      | none =>
        match env.writeError with
        | some m =>
            ⟨Except.error (FsError.streamErr m), fs,
              [FsEvent.accessCheck src, FsEvent.readStreamCall src,
                FsEvent.writeStreamCall dstF]⟩
        | none =>
          let content := Option.getD (FS.read fs src) []
          ⟨Except.ok dstF, FS.write fs dstF (gunzipT content),
            [FsEvent.accessCheck src, FsEvent.readStreamCall src,
              FsEvent.writeStreamCall dstF,
              FsEvent.fileWrite dstF (gunzipT content)]⟩
  else ⟨Except.error (FsError.accessDenied src), fs, [FsEvent.accessCheck src]⟩

/-- Modelled from the spec: the convenience entry point of the missing
src/main.js, exported as performCompressionAndDecompression. It compresses
the fixed default source and then decompresses the produced artifact into
the fixed default destination. -/
def performCompressionAndDecompression (env : StreamEnv) (fs : FS) :
    Except FsError Unit × FS :=
  let r1 := compressFile env fs "./files/source.txt"
  match r1.result with
  | Except.error e => (Except.error e, r1.fsFinal)
  | Except.ok gz =>
    let r2 := decompressFile env r1.fsFinal gz "./files/source_decompressed.txt"
    match r2.result with
    | Except.error e => (Except.error e, r2.fsFinal)
    | Except.ok _ => (Except.ok (), r2.fsFinal)

/-- Events the three piped stages emit over time, as observed by the
promisified pipeline of the mocked util module: data chunks, an error from
the source, transform or destination stage, and the finish signal of the
destination. -/
inductive StreamEvent where
  | chunk (c : Bytes)
  | srcError (m : String)
  | transformError (m : String)
  | destError (m : String)
  | finish
deriving DecidableEq

/-- How a promise settles: fulfilled, or rejected with a message. -/
inductive Settlement where
  | fulfilled
  | rejected (m : String)
deriving DecidableEq

/-- Which settlement, if any, a single stage event triggers under the
wiring of the mocked promisify: each of the three error listeners rejects
and the finish listener resolves; a data chunk settles nothing. -/
def settles : StreamEvent → Option Settlement
  | StreamEvent.chunk _ => none
  | StreamEvent.srcError m => some (Settlement.rejected m)
  | StreamEvent.transformError m => some (Settlement.rejected m)
  | StreamEvent.destError m => some (Settlement.rejected m)
  | StreamEvent.finish => some Settlement.fulfilled

/-- The settlement of the promisified pipeline over an event sequence: the
first settling event wins and later events are ignored, because a promise
keeps the value of its first resolve or reject. -/
def promiseOutcome : List StreamEvent → Option Settlement
  | [] => none
  | e :: rest =>
    match settles e with
    | some s => some s
    | none => promiseOutcome rest

lemma existsAt_of_read {fs : FS} {p : String} {c : Bytes}
    (h : FS.read fs p = some c) : FS.existsAt fs p = true := by
  induction fs with
  | nil => simp [FS.read] at h
  | cons e rest ih =>
    by_cases he : (e.1 == p) = true
    · simp [FS.existsAt, he]
    · rw [FS.read, List.find?_cons_of_neg _ (by simpa using he)] at h
      have := ih h
      simp [FS.existsAt] at this ⊢
      exact Or.inr this

lemma read_cons_neg {e : String × Bytes} {rest : FS} {p : String}
    (h : (e.1 == p) = false) : FS.read (e :: rest) p = FS.read rest p := by
  rw [FS.read, List.find?_cons_of_neg _ (by simp [h]), FS.read]

lemma read_cons_pos {e : String × Bytes} {rest : FS} {p : String}
    (h : (e.1 == p) = true) : FS.read (e :: rest) p = some e.2 := by
  simp [FS.read, List.find?, h]

lemma read_write_self (fs : FS) (p : String) (c : Bytes) :
    FS.read (FS.write fs p c) p = some c := by
  simp [FS.read, FS.write, List.find?]

lemma find?_filter_ne (fs : FS) (p q : String) (h : q ≠ p) :
    List.find? (fun e => e.1 == q) (List.filter (fun e => e.1 != p) fs) =
      List.find? (fun e => e.1 == q) fs := by
  induction fs with
  | nil => rfl
  | cons e rest ih =>
    by_cases hq : e.1 = q
    · have hkeep : (e.1 != p) = true := by
        simp [bne, hq]
        exact h
      rw [List.filter_cons_of_pos (by simpa using hkeep),
        List.find?_cons_of_pos _ (by simp [hq]),
        List.find?_cons_of_pos _ (by simp [hq])]
    · by_cases hp : e.1 = p
      · rw [List.filter_cons_of_neg (by simp [bne, hp]),
          List.find?_cons_of_neg _ (by simp [hq]), ih]
      · rw [List.filter_cons_of_pos (by simp [bne, hp]),
          List.find?_cons_of_neg _ (by simp [hq]),
          List.find?_cons_of_neg _ (by simp [hq]), ih]

lemma read_write_other {p q : String} (fs : FS) (c : Bytes) (h : q ≠ p) :
    FS.read (FS.write fs p c) q = FS.read fs q := by
  have hne : (((p, c) : String × Bytes).1 == q) = false := by
    simp only [beq_eq_false_iff_ne]
    exact fun hc => h hc.symm
  rw [FS.write, read_cons_neg hne, FS.read, find?_filter_ne fs p q h, FS.read]

lemma existsAt_eq_read_isSome (fs : FS) (p : String) :
    FS.existsAt fs p = (FS.read fs p).isSome := by
  induction fs with
  | nil => rfl
  | cons e rest ih =>
    by_cases he : (e.1 == p) = true
    · rw [FS.existsAt, List.any_cons, he, read_cons_pos he]
      rfl
    · have he' : (e.1 == p) = false := by simpa using he
      rw [FS.existsAt, List.any_cons, he', read_cons_neg he', Bool.false_or]
      exact ih

lemma existsAt_write_self (fs : FS) (p : String) (c : Bytes) :
    FS.existsAt (FS.write fs p c) p = true := by
  rw [existsAt_eq_read_isSome, read_write_self]
  rfl

lemma existsAt_write_other {p q : String} (fs : FS) (c : Bytes) (h : q ≠ p) :
    FS.existsAt (FS.write fs p c) q = FS.existsAt fs q := by
  rw [existsAt_eq_read_isSome, read_write_other fs c h, existsAt_eq_read_isSome]

lemma size_pos_of_existsAt {fs : FS} {p : String}
    (h : FS.existsAt fs p = true) : 1 ≤ FS.size fs := by
  cases fs with
  | nil => simp [FS.existsAt] at h
  | cons e rest => simp [FS.size]

lemma getUnique_free {fs : FS} {d : String}
    (h : FS.existsAt fs d = false) : getUniqueFileName fs d = d := by
  simp [getUniqueFileName, h]

lemma getUnique_one {fs : FS} {d : String}
    (hd : FS.existsAt fs d = true)
    (h1 : FS.existsAt fs (mkCandidate d 1) = false) :
    getUniqueFileName fs d = mkCandidate d 1 := by
  simp [getUniqueFileName, hd, searchFree, h1]

lemma getUnique_two {fs : FS} {d : String}
    (hd : FS.existsAt fs d = true)
    (h1 : FS.existsAt fs (mkCandidate d 1) = true)
    (h2 : FS.existsAt fs (mkCandidate d 2) = false) :
    getUniqueFileName fs d = mkCandidate d 2 := by
  have hs : 1 ≤ FS.size fs := size_pos_of_existsAt hd
  obtain ⟨n, hn⟩ : ∃ n, FS.size fs = n + 1 := ⟨FS.size fs - 1, by omega⟩
  simp only [getUniqueFileName, hd, if_true, hn]
  rw [show n + 1 + 1 = n + 2 from rfl]
  rw [searchFree]
  simp only [h1, if_true]
  rw [searchFree]
  simp [h2]

lemma dropPrefixOpt_append (pat rest : List Char) :
    dropPrefixOpt pat (pat ++ rest) = some rest := by
  induction pat with
  | nil => rfl
  | cons p ps ih => simp [dropPrefixOpt, ih]

lemma removeFirst_cons_append (x : Char) (xs c : List Char) :
    removeFirst (x :: xs) (x :: (xs ++ c)) = c := by
  rw [removeFirst]
  have h := dropPrefixOpt_append (x :: xs) c
  simp only [List.cons_append] at h
  rw [h]

lemma removeFirst_self_append (pat c : List Char) (h : pat ≠ []) :
    removeFirst pat (pat ++ c) = c := by
  cases pat with
  | nil => exact absurd rfl h
  | cons x xs =>
    rw [List.cons_append]
    exact removeFirst_cons_append x xs c

lemma gunzip_gzip (c : Bytes) : gunzipT (gzipT c) = c :=
  removeFirst_self_append gzMarker c (by decide)

lemma compress_spec (fs : FS) (src : String) (c : Bytes)
    (h : FS.read fs src = some c) :
    compressFile cleanEnv fs src =
      ⟨Except.ok (getUniqueFileName fs (src ++ ".gz")),
        FS.write fs (getUniqueFileName fs (src ++ ".gz")) (gzipT c),
        [FsEvent.readStreamCall src,
          FsEvent.writeStreamCall (getUniqueFileName fs (src ++ ".gz")),
          FsEvent.fileWrite (getUniqueFileName fs (src ++ ".gz")) (gzipT c)]⟩ := by
  have he := existsAt_of_read h
  simp [compressFile, cleanEnv, he, h]

lemma decompress_spec (fs : FS) (src dst : String) (c : Bytes)
    (h : FS.read fs src = some c) :
    decompressFile cleanEnv fs src dst =
      ⟨Except.ok (getUniqueFileName fs dst),
        FS.write fs (getUniqueFileName fs dst) (gunzipT c),
        [FsEvent.accessCheck src, FsEvent.readStreamCall src,
          FsEvent.writeStreamCall (getUniqueFileName fs dst),
          FsEvent.fileWrite (getUniqueFileName fs dst) (gunzipT c)]⟩ := by
  have he := existsAt_of_read h
  simp [decompressFile, cleanEnv, he, h]

lemma promiseOutcome_first :
    ∀ (pre : List StreamEvent), (∀ x ∈ pre, settles x = none) →
      ∀ (post : List StreamEvent) (e : StreamEvent) (s : Settlement),
        settles e = some s → promiseOutcome (pre ++ e :: post) = some s := by
  intro pre
  induction pre with
  | nil =>
    intro _ post e s he
    simp [promiseOutcome, he]
  | cons x xs ih =>
    intro hpre post e s he
    have hx : settles x = none := hpre x (List.mem_cons_self x xs)
    simp only [List.cons_append, promiseOutcome, hx]
    exact ih (fun y hy => hpre y (List.mem_cons_of_mem x hy)) post e s he

/-- Claim C1: for every byte content written to a source file, compressing
the file with compressFile and then decompressing the produced artifact
with decompressFile yields a destination file whose content equals the
original content exactly. -/
theorem claim1_round_trip (fs : FS) (src dst : String) (c : Bytes)
    (h : FS.read fs src = some c) :
    ∃ gz p,
      (compressFile cleanEnv fs src).result = Except.ok gz ∧
      (decompressFile cleanEnv (compressFile cleanEnv fs src).fsFinal gz dst).result
          = Except.ok p ∧
      FS.read
          (decompressFile cleanEnv (compressFile cleanEnv fs src).fsFinal gz dst).fsFinal
          p = some c := by
  have hc := compress_spec fs src c h
  have h2 : FS.read (compressFile cleanEnv fs src).fsFinal
      (getUniqueFileName fs (src ++ ".gz")) = some (gzipT c) := by
    rw [hc]
    exact read_write_self _ _ _
  have hd := decompress_spec (compressFile cleanEnv fs src).fsFinal
    (getUniqueFileName fs (src ++ ".gz")) dst (gzipT c) h2
  refine ⟨getUniqueFileName fs (src ++ ".gz"),
    getUniqueFileName (compressFile cleanEnv fs src).fsFinal dst, ?_, ?_, ?_⟩
  · rw [hc]
  · rw [hd]
  · rw [hd]
    dsimp only
    rw [gunzip_gzip]
    exact read_write_self _ _ _

/-- Claim C1 witness: the round trip at a concrete volume and content. -/
theorem claim1_round_trip_witness :
    ∃ gz p,
      (compressFile cleanEnv [("/t/a.txt", "hi".data)] ("/t/a.txt")).result
          = Except.ok gz ∧
      (decompressFile cleanEnv
          (compressFile cleanEnv [("/t/a.txt", "hi".data)] ("/t/a.txt")).fsFinal
          gz ("/t/b.txt")).result = Except.ok p ∧
      FS.read
          (decompressFile cleanEnv
            (compressFile cleanEnv [("/t/a.txt", "hi".data)] ("/t/a.txt")).fsFinal
            gz ("/t/b.txt")).fsFinal p = some ("hi".data) :=
  claim1_round_trip [("/t/a.txt", "hi".data)] ("/t/a.txt") ("/t/b.txt")
    ("hi".data) (by decide)

/-- Claim C2: compressing into a directory that already holds the default
compressed name does not overwrite it; with name.gz present the produced
name carries suffix 1, and a further run with both present carries suffix
2, the numeric suffix starting at 1 and increasing by 1 per collision. -/
theorem claim2_unique_suffix (fs fs2 : FS) (src : String) (c c2 : Bytes)
    (h : FS.read fs src = some c)
    (h1 : FS.existsAt fs (src ++ ".gz") = true)
    (h2 : FS.existsAt fs (mkCandidate (src ++ ".gz") 1) = false)
    (g : FS.read fs2 src = some c2)
    (g1 : FS.existsAt fs2 (src ++ ".gz") = true)
    (g2 : FS.existsAt fs2 (mkCandidate (src ++ ".gz") 1) = true)
    (g3 : FS.existsAt fs2 (mkCandidate (src ++ ".gz") 2) = false) :
    (compressFile cleanEnv fs src).result
        = Except.ok (mkCandidate (src ++ ".gz") 1) ∧
    (compressFile cleanEnv fs2 src).result
        = Except.ok (mkCandidate (src ++ ".gz") 2) := by
  constructor
  · rw [compress_spec fs src c h, getUnique_one h1 h2]
  · rw [compress_spec fs2 src c2 g, getUnique_two g1 g2 g3]

/-- Claim C2 witness: suffixes 1 and 2 at a concrete volume. -/
theorem claim2_unique_suffix_witness :
    (compressFile cleanEnv
        [("/test/source.txt", "abc".data), ("/test/source.txt.gz", "x".data)]
        ("/test/source.txt")).result
      = Except.ok (mkCandidate ("/test/source.txt" ++ ".gz") 1) ∧
    (compressFile cleanEnv
        [("/test/source.txt", "abc".data), ("/test/source.txt.gz", "x".data),
          ("/test/source_1.txt.gz", "y".data)]
        ("/test/source.txt")).result
      = Except.ok (mkCandidate ("/test/source.txt" ++ ".gz") 2) :=
  claim2_unique_suffix
    [("/test/source.txt", "abc".data), ("/test/source.txt.gz", "x".data)]
    [("/test/source.txt", "abc".data), ("/test/source.txt.gz", "x".data),
      ("/test/source_1.txt.gz", "y".data)]
    ("/test/source.txt") ("abc".data) ("abc".data)
    (by decide) (by decide) (by decide) (by decide) (by decide) (by decide)
    (by decide)

/-- Claim C4: on success the settled value is exactly the resolved final
destination path, that file holds the fully codec-transformed bytes of the
source, and with no entry at the default destination compressFile settles
with exactly the source path extended by the gz suffix. -/
theorem claim4_success_path (fs : FS) (src dst : String) (c : Bytes)
    (h : FS.read fs src = some c) :
    ((compressFile cleanEnv fs src).result
        = Except.ok (getUniqueFileName fs (src ++ ".gz")) ∧
      FS.read (compressFile cleanEnv fs src).fsFinal
          (getUniqueFileName fs (src ++ ".gz")) = some (gzipT c) ∧
      (FS.existsAt fs (src ++ ".gz") = false →
        getUniqueFileName fs (src ++ ".gz") = src ++ ".gz")) ∧
    ((decompressFile cleanEnv fs src dst).result
        = Except.ok (getUniqueFileName fs dst) ∧
      FS.read (decompressFile cleanEnv fs src dst).fsFinal
          (getUniqueFileName fs dst) = some (gunzipT c)) := by
  have hc := compress_spec fs src c h
  have hd := decompress_spec fs src dst c h
  refine ⟨⟨?_, ?_, fun hne => getUnique_free hne⟩, ?_, ?_⟩
  · rw [hc]
  · rw [hc]
    exact read_write_self _ _ _
  · rw [hd]
  · rw [hd]
    exact read_write_self _ _ _

/-- Claim C4 witness: the resolved path and transformed bytes at a
concrete volume without and with the default destination free. -/
theorem claim4_success_path_witness :
    ((compressFile cleanEnv [("/w/s.txt", "ab".data)] ("/w/s.txt")).result
        = Except.ok (getUniqueFileName [("/w/s.txt", "ab".data)] ("/w/s.txt" ++ ".gz")) ∧
      FS.read (compressFile cleanEnv [("/w/s.txt", "ab".data)] ("/w/s.txt")).fsFinal
          (getUniqueFileName [("/w/s.txt", "ab".data)] ("/w/s.txt" ++ ".gz"))
        = some (gzipT ("ab".data)) ∧
      (FS.existsAt [("/w/s.txt", "ab".data)] ("/w/s.txt" ++ ".gz") = false →
        getUniqueFileName [("/w/s.txt", "ab".data)] ("/w/s.txt" ++ ".gz")
          = "/w/s.txt" ++ ".gz")) ∧
    ((decompressFile cleanEnv [("/w/s.txt", "ab".data)] ("/w/s.txt") ("/w/d.txt")).result
        = Except.ok (getUniqueFileName [("/w/s.txt", "ab".data)] ("/w/d.txt")) ∧
      FS.read
          (decompressFile cleanEnv [("/w/s.txt", "ab".data)] ("/w/s.txt") ("/w/d.txt")).fsFinal
          (getUniqueFileName [("/w/s.txt", "ab".data)] ("/w/d.txt"))
        = some (gunzipT ("ab".data))) :=
  claim4_success_path [("/w/s.txt", "ab".data)] ("/w/s.txt") ("/w/d.txt")
    ("ab".data) (by decide)

/-- Claim C3 as stated is false: at this concrete nonexistent source,
compressFile does reject with a not-found error, but its call trace holds
no explicit existence or access check at all; the only primitive call is
the read-stream creation itself, whose throw is the rejection. -/
theorem claim3_counterexample :
    (compressFile cleanEnv [] ("/test/failing.txt")).result
        = Except.error (FsError.readStreamMissing ("/test/failing.txt")) ∧
    hasAccessEvent (compressFile cleanEnv [] ("/test/failing.txt")).trace = false ∧
    (compressFile cleanEnv [] ("/test/failing.txt")).trace
        = [FsEvent.readStreamCall ("/test/failing.txt")] :=
  ⟨rfl, rfl, rfl⟩

/-- Claim C3 amended: for every nonexistent source path both operations
reject with a not-found error and perform no filesystem writes; for
decompressFile an explicit access check precedes stream setup and is the
rejection, while for compressFile the rejection arises from the
read-stream creation call itself, with no explicit access check. -/
theorem claim3_amended (env : StreamEnv) (fs : FS) (src dst : String)
    (h : FS.existsAt fs src = false) :
    ((compressFile env fs src).result
        = Except.error (FsError.readStreamMissing src) ∧
      (compressFile env fs src).fsFinal = fs ∧
      hasFileWrite (compressFile env fs src).trace = false ∧
      hasAccessEvent (compressFile env fs src).trace = false) ∧
    ((decompressFile env fs src dst).result
        = Except.error (FsError.accessDenied src) ∧
      (decompressFile env fs src dst).fsFinal = fs ∧
      hasFileWrite (decompressFile env fs src dst).trace = false ∧
      (decompressFile env fs src dst).trace = [FsEvent.accessCheck src]) := by
  have hc : compressFile env fs src
      = ⟨Except.error (FsError.readStreamMissing src), fs,
          [FsEvent.readStreamCall src]⟩ := by
    simp [compressFile, h]
  have hd : decompressFile env fs src dst
      = ⟨Except.error (FsError.accessDenied src), fs,
          [FsEvent.accessCheck src]⟩ := by
    simp [decompressFile, h]
  rw [hc, hd]
  exact ⟨⟨rfl, rfl, rfl, rfl⟩, rfl, rfl, rfl, rfl⟩

/-- Claim C3 amended witness: both channels at a concrete empty volume. -/
theorem claim3_amended_witness :
    ((compressFile cleanEnv [] ("/m/a.txt")).result
        = Except.error (FsError.readStreamMissing ("/m/a.txt")) ∧
      (compressFile cleanEnv [] ("/m/a.txt")).fsFinal = [] ∧
      hasFileWrite (compressFile cleanEnv [] ("/m/a.txt")).trace = false ∧
      hasAccessEvent (compressFile cleanEnv [] ("/m/a.txt")).trace = false) ∧
    ((decompressFile cleanEnv [] ("/m/a.txt") ("/m/b.txt")).result
        = Except.error (FsError.accessDenied ("/m/a.txt")) ∧
      (decompressFile cleanEnv [] ("/m/a.txt") ("/m/b.txt")).fsFinal = [] ∧
      hasFileWrite (decompressFile cleanEnv [] ("/m/a.txt") ("/m/b.txt")).trace = false ∧
      (decompressFile cleanEnv [] ("/m/a.txt") ("/m/b.txt")).trace
        = [FsEvent.accessCheck ("/m/a.txt")]) :=
  claim3_amended cleanEnv [] ("/m/a.txt") ("/m/b.txt") (by decide)

/-- Claim C5: a mid-stream error emitted by the read stream during either
compression or decompression settles the returned result as a rejection
carrying the originating error, whose message is exactly the emitted one,
and leaves the volume unchanged. -/
theorem claim5_stream_error (fs : FS) (src dst m : String) (c : Bytes)
    (h : FS.read fs src = some c) :
    ((compressFile ⟨some m, none, none⟩ fs src).result
        = Except.error (FsError.streamErr m) ∧
      (compressFile ⟨some m, none, none⟩ fs src).fsFinal = fs ∧
      FsError.message (FsError.streamErr m) = m) ∧
    ((decompressFile ⟨some m, none, none⟩ fs src dst).result
        = Except.error (FsError.streamErr m) ∧
      (decompressFile ⟨some m, none, none⟩ fs src dst).fsFinal = fs) := by
  have he := existsAt_of_read h
  have hc : compressFile ⟨some m, none, none⟩ fs src
      = ⟨Except.error (FsError.streamErr m), fs,
          [FsEvent.readStreamCall src,
            FsEvent.writeStreamCall (getUniqueFileName fs (src ++ ".gz"))]⟩ := by
    simp [compressFile, he]
  have hd : decompressFile ⟨some m, none, none⟩ fs src dst
      = ⟨Except.error (FsError.streamErr m), fs,
          [FsEvent.accessCheck src, FsEvent.readStreamCall src,
            FsEvent.writeStreamCall (getUniqueFileName fs dst)]⟩ := by
    simp [decompressFile, he]
  rw [hc, hd]
  exact ⟨⟨rfl, rfl, rfl⟩, rfl, rfl⟩

/-- Claim C5 witness: an injected read-stream error at a concrete volume. -/
theorem claim5_stream_error_witness :
    ((compressFile ⟨some "Compression stream error", none, none⟩
        [("/v/s.txt", "ab".data)] ("/v/s.txt")).result
        = Except.error (FsError.streamErr "Compression stream error") ∧
      (compressFile ⟨some "Compression stream error", none, none⟩
        [("/v/s.txt", "ab".data)] ("/v/s.txt")).fsFinal = [("/v/s.txt", "ab".data)] ∧
      FsError.message (FsError.streamErr "Compression stream error")
        = "Compression stream error") ∧
    ((decompressFile ⟨some "Compression stream error", none, none⟩
        [("/v/s.txt", "ab".data)] ("/v/s.txt") ("/v/d.txt")).result
        = Except.error (FsError.streamErr "Compression stream error") ∧
      (decompressFile ⟨some "Compression stream error", none, none⟩
        [("/v/s.txt", "ab".data)] ("/v/s.txt") ("/v/d.txt")).fsFinal
        = [("/v/s.txt", "ab".data)]) :=
  claim5_stream_error [("/v/s.txt", "ab".data)] ("/v/s.txt") ("/v/d.txt")
    ("Compression stream error") ("ab".data) (by decide)

/-- Claim C6: when the codec transform fails during decompression,
decompressFile settles as a rejection carrying the codec error; it does
not settle successfully, writes nothing and leaves the volume unchanged. -/
theorem claim6_codec_error (fs : FS) (src dst m : String) (c : Bytes)
    (h : FS.read fs src = some c) :
    (decompressFile ⟨none, some m, none⟩ fs src dst).result
        = Except.error (FsError.codecErr m) ∧
    (decompressFile ⟨none, some m, none⟩ fs src dst).fsFinal = fs ∧
    hasFileWrite (decompressFile ⟨none, some m, none⟩ fs src dst).trace = false := by
  have he := existsAt_of_read h
  have hd : decompressFile ⟨none, some m, none⟩ fs src dst
      = ⟨Except.error (FsError.codecErr m), fs,
          [FsEvent.accessCheck src, FsEvent.readStreamCall src,
            FsEvent.writeStreamCall (getUniqueFileName fs dst)]⟩ := by
    simp [decompressFile, he]
  rw [hd]
  exact ⟨rfl, rfl, rfl⟩

/-- Claim C6 witness: an injected codec failure at a concrete volume. -/
theorem claim6_codec_error_witness :
    (decompressFile ⟨none, some "Invalid Gzip data", none⟩
        [("/v/s.txt.gz", "zz".data)] ("/v/s.txt.gz") ("/v/d.txt")).result
        = Except.error (FsError.codecErr "Invalid Gzip data") ∧
    (decompressFile ⟨none, some "Invalid Gzip data", none⟩
        [("/v/s.txt.gz", "zz".data)] ("/v/s.txt.gz") ("/v/d.txt")).fsFinal
        = [("/v/s.txt.gz", "zz".data)] ∧
    hasFileWrite (decompressFile ⟨none, some "Invalid Gzip data", none⟩
        [("/v/s.txt.gz", "zz".data)] ("/v/s.txt.gz") ("/v/d.txt")).trace = false :=
  claim6_codec_error [("/v/s.txt.gz", "zz".data)] ("/v/s.txt.gz") ("/v/d.txt")
    ("Invalid Gzip data") ("zz".data) (by decide)

/-- Claim C7: when the desired destination already exists, the operation
writes only to the disambiguated path, suffixed before the extension, and
the pre-existing colliding file keeps its content: the compression result
carries suffix 1 with the old default destination untouched, and the
decompression result carries suffix 1 with the old destination intact. -/
theorem claim7_frame (fs fs2 : FS) (src src2 dst : String) (c u c2 u2 : Bytes)
    (h : FS.read fs src = some c)
    (hgz : FS.read fs (src ++ ".gz") = some u)
    (h1 : FS.existsAt fs (mkCandidate (src ++ ".gz") 1) = false)
    (hne : mkCandidate (src ++ ".gz") 1 ≠ src ++ ".gz")
    (g : FS.read fs2 src2 = some c2)
    (gdst : FS.read fs2 dst = some u2)
    (g1 : FS.existsAt fs2 (mkCandidate dst 1) = false)
    (gne : mkCandidate dst 1 ≠ dst) :
    ((compressFile cleanEnv fs src).result
        = Except.ok (mkCandidate (src ++ ".gz") 1) ∧
      FS.read (compressFile cleanEnv fs src).fsFinal (src ++ ".gz") = some u ∧
      FS.read (compressFile cleanEnv fs src).fsFinal (mkCandidate (src ++ ".gz") 1)
        = some (gzipT c)) ∧
    ((decompressFile cleanEnv fs2 src2 dst).result = Except.ok (mkCandidate dst 1) ∧
      FS.read (decompressFile cleanEnv fs2 src2 dst).fsFinal dst = some u2 ∧
      FS.read (decompressFile cleanEnv fs2 src2 dst).fsFinal (mkCandidate dst 1)
        = some (gunzipT c2)) := by
  have hu := getUnique_one (existsAt_of_read hgz) h1
  have hc := compress_spec fs src c h
  rw [hu] at hc
  have gu := getUnique_one (existsAt_of_read gdst) g1
  have gd := decompress_spec fs2 src2 dst c2 g
  rw [gu] at gd
  refine ⟨⟨?_, ?_, ?_⟩, ?_, ?_, ?_⟩
  · rw [hc]
  · rw [hc]
    dsimp only
    rw [read_write_other fs (gzipT c) (fun hq => hne hq.symm)]
    exact hgz
  · rw [hc]
    exact read_write_self _ _ _
  · rw [gd]
  · rw [gd]
    dsimp only
    rw [read_write_other fs2 (gunzipT c2) (fun hq => gne hq.symm)]
    exact gdst
  · rw [gd]
    exact read_write_self _ _ _

/-- Claim C7 witness: colliding destinations at concrete volumes, with the
pre-existing files keeping their content. -/
theorem claim7_frame_witness :
    ((compressFile cleanEnv
        [("/f/source.txt", "ab".data), ("/f/source.txt.gz", "old".data)]
        ("/f/source.txt")).result
        = Except.ok (mkCandidate ("/f/source.txt" ++ ".gz") 1) ∧
      FS.read (compressFile cleanEnv
          [("/f/source.txt", "ab".data), ("/f/source.txt.gz", "old".data)]
          ("/f/source.txt")).fsFinal ("/f/source.txt" ++ ".gz") = some ("old".data) ∧
      FS.read (compressFile cleanEnv
          [("/f/source.txt", "ab".data), ("/f/source.txt.gz", "old".data)]
          ("/f/source.txt")).fsFinal (mkCandidate ("/f/source.txt" ++ ".gz") 1)
        = some (gzipT ("ab".data))) ∧
    ((decompressFile cleanEnv
        [("/f/source.txt.gz", "cc".data), ("/f/source_decompressed.txt", "keep".data)]
        ("/f/source.txt.gz") ("/f/source_decompressed.txt")).result
        = Except.ok (mkCandidate ("/f/source_decompressed.txt") 1) ∧
      FS.read (decompressFile cleanEnv
          [("/f/source.txt.gz", "cc".data), ("/f/source_decompressed.txt", "keep".data)]
          ("/f/source.txt.gz") ("/f/source_decompressed.txt")).fsFinal
          ("/f/source_decompressed.txt") = some ("keep".data) ∧
      FS.read (decompressFile cleanEnv
          [("/f/source.txt.gz", "cc".data), ("/f/source_decompressed.txt", "keep".data)]
          ("/f/source.txt.gz") ("/f/source_decompressed.txt")).fsFinal
          (mkCandidate ("/f/source_decompressed.txt") 1) = some (gunzipT ("cc".data))) :=
  claim7_frame
    [("/f/source.txt", "ab".data), ("/f/source.txt.gz", "old".data)]
    [("/f/source.txt.gz", "cc".data), ("/f/source_decompressed.txt", "keep".data)]
    ("/f/source.txt") ("/f/source.txt.gz") ("/f/source_decompressed.txt")
    ("ab".data) ("old".data) ("cc".data) ("keep".data)
    (by decide) (by decide) (by decide) (by decide) (by decide) (by decide)
    (by decide) (by decide)

/-- Claim C8: the returned asynchronous result settles exactly once. Under
the promisify wiring the settlement of the pipeline is the outcome of the
first settling stage event, whatever errors or finish signals follow, and
every invocation of compressFile or decompressFile settles as exactly one
of a fulfillment with the final path or a rejection with an error. -/
theorem claim8_single_settlement (pre post : List StreamEvent) (e : StreamEvent)
    (s : Settlement) (hpre : ∀ x ∈ pre, settles x = none)
    (he : settles e = some s) :
    promiseOutcome (pre ++ e :: post) = some s ∧
    (∀ (env : StreamEnv) (fs : FS) (src dst : String),
      ((∃ p, (compressFile env fs src).result = Except.ok p) ∨
        (∃ er, (compressFile env fs src).result = Except.error er)) ∧
      ((∃ p, (decompressFile env fs src dst).result = Except.ok p) ∨
        (∃ er, (decompressFile env fs src dst).result = Except.error er))) := by
  refine ⟨promiseOutcome_first pre hpre post e s he, ?_⟩
  intro env fs src dst
  constructor
  · cases hr : (compressFile env fs src).result with
    | ok p => exact Or.inl ⟨p, rfl⟩
    | error er => exact Or.inr ⟨er, rfl⟩
  · cases hr : (decompressFile env fs src dst).result with
    | ok p => exact Or.inl ⟨p, rfl⟩
    | error er => exact Or.inr ⟨er, rfl⟩

/-- Claim C8 witness: a data chunk, then a source error, then a later
finish signal; the settlement is the rejection of the first error. -/
theorem claim8_single_settlement_witness :
    promiseOutcome
        ([StreamEvent.chunk ("ab".data)]
          ++ StreamEvent.srcError ("boom") :: [StreamEvent.finish])
      = some (Settlement.rejected ("boom")) ∧
    (∀ (env : StreamEnv) (fs : FS) (src dst : String),
      ((∃ p, (compressFile env fs src).result = Except.ok p) ∨
        (∃ er, (compressFile env fs src).result = Except.error er)) ∧
      ((∃ p, (decompressFile env fs src dst).result = Except.ok p) ∨
        (∃ er, (decompressFile env fs src dst).result = Except.error er))) :=
  claim8_single_settlement [StreamEvent.chunk ("ab".data)] [StreamEvent.finish]
    (StreamEvent.srcError ("boom")) (Settlement.rejected ("boom"))
    (by decide) (by decide)

/-- Claim C9: the convenience entry point compresses the fixed default
source into the default gz artifact and decompresses that artifact into
the fixed default destination, whose content then equals the original
source content. -/
theorem claim9_default_round_trip (fs : FS) (c : Bytes)
    (h : FS.read fs ("./files/source.txt") = some c)
    (h1 : FS.existsAt fs ("./files/source.txt.gz") = false)
    (h2 : FS.existsAt fs ("./files/source_decompressed.txt") = false) :
    (performCompressionAndDecompression cleanEnv fs).1 = Except.ok () ∧
    FS.read (performCompressionAndDecompression cleanEnv fs).2
        ("./files/source.txt.gz") = some (gzipT c) ∧
    FS.read (performCompressionAndDecompression cleanEnv fs).2
        ("./files/source_decompressed.txt") = some c := by
  have hc := compress_spec fs ("./files/source.txt") c h
  have happ : ("./files/source.txt" : String) ++ ".gz" = "./files/source.txt.gz" := rfl
  rw [happ, getUnique_free h1] at hc
  have hr1 : FS.read (FS.write fs ("./files/source.txt.gz") (gzipT c))
      ("./files/source.txt.gz") = some (gzipT c) := read_write_self _ _ _
  have hx1 : FS.existsAt (FS.write fs ("./files/source.txt.gz") (gzipT c))
      ("./files/source_decompressed.txt") = false := by
    rw [existsAt_write_other fs (gzipT c) (by decide)]
    exact h2
  have hd := decompress_spec (FS.write fs ("./files/source.txt.gz") (gzipT c))
    ("./files/source.txt.gz") ("./files/source_decompressed.txt") (gzipT c) hr1
  rw [getUnique_free hx1] at hd
  have hperf : performCompressionAndDecompression cleanEnv fs
      = (Except.ok (),
          FS.write (FS.write fs ("./files/source.txt.gz") (gzipT c))
            ("./files/source_decompressed.txt") (gunzipT (gzipT c))) := by
    simp only [performCompressionAndDecompression, hc, hd]
  rw [hperf]
  refine ⟨rfl, ?_, ?_⟩
  · dsimp only
    rw [read_write_other _ (gunzipT (gzipT c)) (by decide)]
    exact hr1
  · dsimp only
    rw [gunzip_gzip]
    exact read_write_self _ _ _

/-- Claim C9 witness: the default round trip at a concrete volume holding
only the default source. -/
theorem claim9_default_round_trip_witness :
    (performCompressionAndDecompression cleanEnv
        [("./files/source.txt", "ok".data)]).1 = Except.ok () ∧
    FS.read (performCompressionAndDecompression cleanEnv
        [("./files/source.txt", "ok".data)]).2
        ("./files/source.txt.gz") = some (gzipT ("ok".data)) ∧
    FS.read (performCompressionAndDecompression cleanEnv
        [("./files/source.txt", "ok".data)]).2
        ("./files/source_decompressed.txt") = some ("ok".data) :=
  claim9_default_round_trip [("./files/source.txt", "ok".data)] ("ok".data)
    (by decide) (by decide) (by decide)

/-- Claim C10: the missing-source failure channel differs between the two
operations. For every nonexistent source, compressFile rejects with the
error thrown by the read-stream creation, whose message names the file,
while decompressFile rejects with the error of the explicit access check,
carrying the ENOENT access message, before any stream call is made. -/
theorem claim10_error_channels (env : StreamEnv) (fs : FS) (src dst : String)
    (h : FS.existsAt fs src = false) :
    ((compressFile env fs src).result
        = Except.error (FsError.readStreamMissing src) ∧
      FsError.message (FsError.readStreamMissing src)
        = "file \"" ++ src ++ "\" does not exist" ∧
      (compressFile env fs src).trace = [FsEvent.readStreamCall src] ∧
      hasAccessEvent (compressFile env fs src).trace = false) ∧
    ((decompressFile env fs src dst).result
        = Except.error (FsError.accessDenied src) ∧
      FsError.message (FsError.accessDenied src)
        = "ENOENT: no such file or directory, access " ++ squote ++ src ++ squote ∧
      (decompressFile env fs src dst).trace = [FsEvent.accessCheck src]) := by
  have hc : compressFile env fs src
      = ⟨Except.error (FsError.readStreamMissing src), fs,
          [FsEvent.readStreamCall src]⟩ := by
    simp [compressFile, h]
  have hd : decompressFile env fs src dst
      = ⟨Except.error (FsError.accessDenied src), fs,
          [FsEvent.accessCheck src]⟩ := by
    simp [decompressFile, h]
  rw [hc, hd]
  exact ⟨⟨rfl, rfl, rfl, rfl⟩, rfl, rfl, rfl⟩

/-- Claim C10 witness: the two failure channels at a concrete empty
volume. -/
theorem claim10_error_channels_witness :
    ((compressFile cleanEnv [] ("/q/missing.txt")).result
        = Except.error (FsError.readStreamMissing ("/q/missing.txt")) ∧
      FsError.message (FsError.readStreamMissing ("/q/missing.txt"))
        = "file \"" ++ "/q/missing.txt" ++ "\" does not exist" ∧
      (compressFile cleanEnv [] ("/q/missing.txt")).trace
        = [FsEvent.readStreamCall ("/q/missing.txt")] ∧
      hasAccessEvent (compressFile cleanEnv [] ("/q/missing.txt")).trace = false) ∧
    ((decompressFile cleanEnv [] ("/q/missing.txt") ("/q/out.txt")).result
        = Except.error (FsError.accessDenied ("/q/missing.txt")) ∧
      FsError.message (FsError.accessDenied ("/q/missing.txt"))
        = "ENOENT: no such file or directory, access " ++ squote
            ++ "/q/missing.txt" ++ squote ∧
      (decompressFile cleanEnv [] ("/q/missing.txt") ("/q/out.txt")).trace
        = [FsEvent.accessCheck ("/q/missing.txt")]) :=
  claim10_error_channels cleanEnv [] ("/q/missing.txt") ("/q/out.txt") (by decide)
